import Mathlib

/-!
Verification of the book-notes-app scraping core.

The embedding below translates the two worker scrapers:
* `AmazonScraper.scrapeAmazonProduct` (workers/metadata-worker/src/index.ts):
  ASIN-from-URL shortcut, per-field selector extraction, the product-details
  list scan for `yearPublished` / `pageLength`, and the sentinel assembler.
* `BookFinder.findBookWithGoogleSearch` and `BookFinder.logError`
  (workers/store-link-worker/src/index.ts): link classification inside
  `page.evaluate`, store-preference selection, the empty-result error, and
  the bounded agent state updates.

DOM access (`querySelector`, `textContent`) is the boundary of the model:
a page is represented by the texts those queries yield.  Everything after
that boundary is translated statement-for-statement from the source.
-/

namespace BookNotes

/-- `leadsWith pat l` holds when the character list `pat` is an initial
segment of `l` (the building block for JS `String.prototype.includes` and
`String.prototype.startsWith`). -/
def leadsWith : List Char → List Char → Bool
  | [], _ => true
  | _ :: _, [] => false
  | p :: ps, x :: xs => p == x && leadsWith ps xs

/-- `containsSeg pat l`: `pat` occurs as a contiguous segment of `l`
(JS `l.includes(pat)`). -/
def containsSeg : List Char → List Char → Bool
  | pat, [] => leadsWith pat []
  | pat, x :: xs => leadsWith pat (x :: xs) || containsSeg pat xs

/-- JS `s.includes(pat)` on strings. -/
def hasSub (pat s : String) : Bool := containsSeg pat.data s.data

/-- JS `s.startsWith(pat)` on strings. -/
def startsWithStr (pat s : String) : Bool := leadsWith pat.data s.data

/-- The suffix of `l` after the first occurrence of `pat`
(what JS `l.split(pat)[1]` starts with; total, `[]` when absent). -/
def afterFirst : List Char → List Char → List Char
  | _, [] => []
  | pat, x :: xs => if leadsWith pat (x :: xs) then (x :: xs).drop pat.length
                    else afterFirst pat xs

/-! ## Link classification (store-link worker, `page.evaluate` body) -/

/-- A raw anchor scraped from the results page: `href` attribute and text. -/
structure RawLink where
  url : String
  title : String
deriving DecidableEq, Repr

/-- A classified link, as pushed onto `links` in the source. -/
structure BookLink where
  url : String
  title : String
  storeType : String
deriving DecidableEq, Repr

/-- The `if`/`else if` domain chain of the source: first matching retailer
domain determines the store type; `none` models the `continue` on the final
`else` (store not recognized). -/
def storeTypeOf (href : String) : Option String :=
  if hasSub "amazon.com" href then some "amazon"
  else if hasSub "barnesandnoble.com" href then some "barnesnoble"
  else if hasSub "books.google.com" href then some "google"
  else if hasSub "goodreads.com" href then some "goodreads"
  else if hasSub "bookshop.org" href then some "bookshop"
  else none

/-- One iteration of the link loop: `continue` becomes `none`, `push`
becomes `some`.  Order of checks as in the source: scheme, domain chain,
ad/redirect markers. -/
def classifyOne (r : RawLink) : Option BookLink :=
  if !(startsWithStr "http" r.url) then none
  else
    match storeTypeOf r.url with
    | none => none
    | some st =>
      if hasSub "/aclk?" r.url || hasSub "/url?" r.url then none
      else some { url := r.url, title := r.title, storeType := st }

/-- The whole loop over `#search a` anchors, in document order. -/
def classifyLinks (raw : List RawLink) : List BookLink :=
  raw.filterMap classifyOne

/-- Store-preference selection and the empty-result error from
`findBookWithGoogleSearch`: throw when no classified links exist, filter by
preferred store unless it is `"any"`, fall back to the full list when the
filter is empty, and return the first remaining link. -/
def findBookLink (links : List BookLink) (storePreference : String) :
    Except String BookLink :=
  if links.isEmpty then
    Except.error "No book links found in search results"
  else
    let filteredLinks :=
      if storePreference == "any" then links
      else
        let f := links.filter (fun l => l.storeType == storePreference)
        if f.isEmpty then links else f
    match filteredLinks.head? with
    | some b => Except.ok b
    | none => Except.error "No book links found in search results"

/-- `true` on `Except.ok`. -/
def isOkE : Except String BookLink → Bool
  | Except.ok _ => true
  | Except.error _ => false

/-- A fixed default link (used only to phrase `headD` in statements). -/
def dummyLink : BookLink := { url := "", title := "", storeType := "" }

/-! ## Amazon product scraper (metadata worker) -/

/-- `\s` of the page-length regex, restricted to the ASCII whitespace that
occurs in Amazon detail rows. -/
def isWs (c : Char) : Bool := c == ' ' || c == '\t' || c == '\n' || c == '\r'

/-- Regex `\d{4}` tested at the head of the list: four leading digits. -/
def match4 : List Char → Option (List Char)
  | a :: b :: c :: d :: _ =>
    if a.isDigit && b.isDigit && c.isDigit && d.isDigit then some [a, b, c, d]
    else none
  | _ => none

/-- JS `text.match(/\d{4}/)`: leftmost window of four digits. -/
def firstMatch4 : List Char → Option (List Char)
  | [] => none
  | x :: xs =>
    match match4 (x :: xs) with
    | some m => some m
    | none => firstMatch4 xs

/-- Regex `\d+\s*pages` tested at the head of the list.  Backtracking never
helps here (shortening the greedy `\d+` or `\s*` leaves a digit or a space
where `p` must stand), so the greedy-run reading is exact. -/
def pageMatchAt (l : List Char) : Option (List Char) :=
  let ds := l.takeWhile Char.isDigit
  if ds.isEmpty then none
  else
    let rest := l.drop ds.length
    let ws := rest.takeWhile isWs
    let rest2 := rest.drop ws.length
    if leadsWith "pages".data rest2 then some (ds ++ ws ++ "pages".data)
    else none

/-- JS `text.match(/\d+\s*pages/)`: leftmost match. -/
def firstPageMatch : List Char → Option (List Char)
  | [] => none
  | x :: xs =>
    match pageMatchAt (x :: xs) with
    | some m => some m
    | none => firstPageMatch xs

/-- The `forEach` body over the product-detail list items, threading the
`details` record: first the publication-date check that may assign
`yearPublished`, then the page-length check that may assign `pageLength`.
A match overwrites the value left by an earlier item. -/
def scanStep (acc : Option String × Option String) (text : String) :
    Option String × Option String :=
  let a1 :=
    if hasSub "Publication date" text || hasSub "Publisher" text then
      match firstMatch4 text.data with
      | some m => (some (String.mk m), acc.2)
      | none => acc
    else acc
  if hasSub "Print length" text || hasSub "pages" text || hasSub "Page length" text then
    match firstPageMatch text.data with
    | some m => (a1.1, some (String.mk m))
    | none => a1
  else a1

/-- The whole `detailElements.forEach` scan: `(yearPublished?, pageLength?)`
starting from an empty `details` record. -/
def detailsScan (items : List String) : Option String × Option String :=
  items.foldl scanStep (none, none)

/-- What one item would contribute to `yearPublished`: the first 4-digit
window, provided the item mentions a publication keyword. -/
def yearVal (text : String) : Option String :=
  if hasSub "Publication date" text || hasSub "Publisher" text then
    (firstMatch4 text.data).map String.mk
  else none

/-- What one item would contribute to `pageLength`. -/
def pageVal (text : String) : Option String :=
  if hasSub "Print length" text || hasSub "pages" text || hasSub "Page length" text then
    (firstPageMatch text.data).map String.mk
  else none

/-- The ASIN-from-URL branch chain: `/dp/` first, then `/gp/product/`;
`none` when the in-page `#ASIN` lookup would run.  JS
`url.split(seg)[1].split('/')[0]` is the suffix after the first occurrence
of `seg`, cut at the first `/`. -/
def asinFromUrl (url : String) : Option String :=
  if hasSub "/dp/" url then
    some (String.mk ((afterFirst "/dp/".data url.data).takeWhile (fun c => c != '/')))
  else if hasSub "/gp/product/" url then
    some (String.mk ((afterFirst "/gp/product/".data url.data).takeWhile (fun c => c != '/')))
  else none

/-- The texts the per-field DOM queries yield for one loaded page; `""` /
`none` stand for an absent element, matching the `: ''` arms and the
`?.trim()` of the source. -/
structure PageData where
  titleRaw : String
  authorRaw : String
  detailItems : List String
  descExpander : Option String
  descFallback : Option String
  pageAsin : String
deriving Repr

/-- The ASIN variable after the URL shortcut or the in-page lookup. -/
def extractAsin (url : String) (d : PageData) : String :=
  match asinFromUrl url with
  | some a => a
  | none => d.pageAsin

/-- The description rule chain: the `#bookDescription_feature_div
.a-expander-content` rule returns as soon as the element exists; only
otherwise are the fallback selectors consulted. -/
def descChain (expander fallback : Option String) : String :=
  match expander with
  | some t => t
  | none =>
    match fallback with
    | some t => t
    | none => ""

/-- The description extractor applied to a page. -/
def extractDescription (d : PageData) : String :=
  descChain d.descExpander d.descFallback

/-- The scraped record (the `url` of the source record is kept verbatim). -/
structure AmazonProductData where
  asin : String
  title : String
  author : String
  yearPublished : String
  pageLength : String
  description : String
  url : String
deriving DecidableEq, Repr

/-- The sentinel of the result assembler. -/
def notFound : String := "Not found"

/-- JS `v || 'Not found'` on a string (empty is falsy). -/
def orNotFound (s : String) : String := if s = "" then notFound else s

/-- JS `v || 'Not found'` on a possibly-unassigned record field. -/
def optOrNotFound : Option String → String
  | none => notFound
  | some s => orNotFound s

/-- `scrapeAmazonProduct` after page acquisition: field extraction and the
final record assembly with sentinels. -/
def scrapeAmazonProduct (amazonUrl : String) (d : PageData) : AmazonProductData :=
  let details := detailsScan d.detailItems
  { asin := orNotFound (extractAsin amazonUrl d)
  , title := orNotFound d.titleRaw
  , author := orNotFound d.authorRaw
  , yearPublished := optOrNotFound details.1
  , pageLength := optOrNotFound details.2
  , description := orNotFound (extractDescription d)
  , url := amazonUrl }

example : asinFromUrl "https://www.amazon.com/x/dp/B08ABC1234/ref=foo" =
    some "B08ABC1234" := by decide

example : detailsScan ["Publication date : 1999", "Publisher : Foo (2005)"] =
    (some "2005", none) := by decide

example : detailsScan ["Print length : 320 pages"] = (none, some "320 pages") := by decide

/-! ## BookFinder agent state (store-link worker) -/

/-- One entry of `recentSearches`. -/
structure SearchEntry where
  query : String
  bookUrl : String
  storeType : String
  timestamp : String
deriving DecidableEq, Repr

/-- One entry of `errors`. -/
structure ErrorEntry where
  timestamp : String
  query : String
  error : String
deriving DecidableEq, Repr

/-- `BookSearchState`; the `|| []` initialisation of the source makes both
optional lists empty lists here. -/
structure BookSearchState where
  recentSearches : List SearchEntry
  errors : List ErrorEntry
deriving DecidableEq, Repr

/-- The `setState` call of the `/search` success path: prepend the new
entry to `recentSearches.slice(0, 9)`, spread the rest of the state. -/
def recordSearch (st : BookSearchState) (e : SearchEntry) : BookSearchState :=
  { st with recentSearches := e :: st.recentSearches.take 9 }

/-- `BookFinder.logError`: prepend the new entry to `errors.slice(0, 19)`,
spread the rest of the state. -/
def logError (st : BookSearchState) (e : ErrorEntry) : BookSearchState :=
  { st with errors := e :: st.errors.take 19 }

/-! ## Session lifecycle (browser acquire / release)

Both workers follow the same shape: launch a browser, run the scraping body
inside `try`, close the browser in `finally`.  The small language below has
exactly the constructs those handlers use — sequencing, a `try`/`finally`
block, acquiring and releasing the one session, and body work that may
throw — with the JS semantics that a throw skips the rest of a sequence but
never a `finally` block. -/

/-- Atomic actions: acquire a session, release a session, or body work
(`work false` throws). -/
inductive Act where
  | acquire : Act
  | release : Act
  | work : Bool → Act
deriving DecidableEq, Repr

/-- Programs: actions, sequencing, and `try`/`finally`. -/
inductive Prog where
  | act : Act → Prog
  | seq : Prog → Prog → Prog
  | attempt : Prog → Prog → Prog
deriving DecidableEq, Repr

/-- `exec p n = (open sessions afterwards, exception pending?)` starting
from `n` open sessions.  `seq` stops at a pending exception; `attempt`
always runs its `finally` and keeps the exception pending. -/
def execP : Prog → Nat → Nat × Bool
  | Prog.act Act.acquire, n => (n + 1, false)
  | Prog.act Act.release, n => (n - 1, false)
  | Prog.act (Act.work ok), n => (n, !ok)
  | Prog.seq p q, n =>
    let r := execP p n
    if r.2 then r else execP q r.1
  | Prog.attempt b f, n =>
    let rb := execP b n
    let rf := execP f rb.1
    (rf.1, rb.2 || rf.2)

/-- Programs that neither acquire nor release a session themselves (every
scraping body: page creation, navigation, extraction). -/
def sessionNeutral : Prog → Bool
  | Prog.act Act.acquire => false
  | Prog.act Act.release => false
  | Prog.act (Act.work _) => true
  | Prog.seq p q => sessionNeutral p && sessionNeutral q
  | Prog.attempt p q => sessionNeutral p && sessionNeutral q

/-- `scrapeAmazonProduct`'s shape: the launch sits inside the `try`, the
`finally` closes the browser when it was set. -/
def scrapeProg (body : Prog) : Prog :=
  Prog.attempt (Prog.seq (Prog.act Act.acquire) body) (Prog.act Act.release)

/-- `findBookWithGoogleSearch`'s shape: launch first, then the inner
`try`/`finally` around the body with `browser.close()` in the `finally`. -/
def findProg (body : Prog) : Prog :=
  Prog.seq (Prog.act Act.acquire) (Prog.attempt body (Prog.act Act.release))

example : execP (scrapeProg (Prog.act (Act.work false))) 0 = (0, true) := by decide

example : classifyLinks [⟨"https://www.amazon.com/dp/X", "X"⟩,
    ⟨"https://ads.example.com/aclk?x", "ad"⟩,
    ⟨"https://www.goodreads.com/book/1", "Y"⟩] =
    [⟨"https://www.amazon.com/dp/X", "X", "amazon"⟩,
     ⟨"https://www.goodreads.com/book/1", "Y", "goodreads"⟩] := by decide

example : findBookLink [⟨"X", "x", "amazon"⟩, ⟨"Y", "y", "goodreads"⟩]
    "barnesnoble" = Except.ok ⟨"X", "x", "amazon"⟩ := by rfl

/-! ## Statement-level auxiliary definitions -/

/-- The classified form of a raw link; `foundStoreType` starts out as
`"unknown"` in the source loop. -/
def tagLink (r : RawLink) : BookLink :=
  { url := r.url, title := r.title, storeType := (storeTypeOf r.url).getD "unknown" }

/-- Forget the classification of a link (its `{url, title}` part). -/
def toRaw (b : BookLink) : RawLink := { url := b.url, title := b.title }

/-- First non-`none` value of `f` along a list (leftmost match). -/
def firstSome (f : α → Option β) : List α → Option β
  | [] => none
  | x :: xs =>
    match f x with
    | some b => some b
    | none => firstSome f xs

/-! ## Helper lemmas -/

theorem lw_split {p l : List Char} (h : leadsWith p l = true) :
    l = p ++ l.drop p.length := by
  induction p generalizing l with
  | nil => simp
  | cons c cs ih =>
    cases l with
    | nil => simp [leadsWith] at h
    | cons x xs =>
      simp only [leadsWith, Bool.and_eq_true, beq_iff_eq] at h
      obtain ⟨rfl, h2⟩ := h
      simp only [List.cons_append, List.length_cons, List.drop_succ_cons]
      exact congrArg (List.cons c) (ih h2)

theorem afterFirst_split {p l : List Char} (h : containsSeg p l = true) :
    ∃ pre, l = pre ++ p ++ afterFirst p l := by
  induction l with
  | nil =>
    refine ⟨[], ?_⟩
    cases p with
    | nil => simp [afterFirst]
    | cons c cs => simp [containsSeg, leadsWith] at h
  | cons x xs ih =>
    by_cases hl : leadsWith p (x :: xs) = true
    · refine ⟨[], ?_⟩
      simp only [afterFirst, hl, if_true, List.nil_append]
      exact lw_split hl
    · have h2 : containsSeg p xs = true := by
        simp only [containsSeg, Bool.or_eq_true] at h
        exact h.resolve_left hl
      obtain ⟨pre, hp⟩ := ih h2
      refine ⟨x :: pre, ?_⟩
      simp only [afterFirst, hl, if_false, Bool.false_eq_true, List.cons_append]
      exact congrArg (List.cons x) hp

theorem tw_all (p : Char → Bool) (l : List Char) : (l.takeWhile p).all p = true := by
  induction l with
  | nil => rfl
  | cons x xs ih =>
    by_cases hx : p x = true
    · simp [List.takeWhile_cons, hx, ih]
    · simp [List.takeWhile_cons, hx]

theorem tw_split (p : Char → Bool) (l : List Char) :
    l = l.takeWhile p ++ l.drop (l.takeWhile p).length := by
  induction l with
  | nil => rfl
  | cons x xs ih =>
    by_cases hx : p x = true
    · simp only [List.takeWhile_cons, hx, if_true, List.cons_append, List.length_cons,
        List.drop_succ_cons]
      exact congrArg (List.cons x) ih
    · simp [List.takeWhile_cons, hx]

theorem match4_spec {l m : List Char} (h : match4 l = some m) :
    m.length = 4 ∧ m.all Char.isDigit = true ∧ ∃ t, l = m ++ t := by
  match l with
  | [] => simp [match4] at h
  | [a] => simp [match4] at h
  | [a, b] => simp [match4] at h
  | [a, b, c] => simp [match4] at h
  | a :: b :: c :: d :: rest =>
    rw [match4] at h
    split at h
    · next hd =>
      injection h with h
      subst h
      simp only [Bool.and_eq_true] at hd
      refine ⟨rfl, ?_, rest, rfl⟩
      simp [List.all_cons, hd.1.1.1, hd.1.1.2, hd.1.2, hd.2]
    · exact absurd h (by simp)

theorem firstMatch4_spec {l m : List Char} (h : firstMatch4 l = some m) :
    m.length = 4 ∧ m.all Char.isDigit = true ∧ ∃ a b, l = a ++ m ++ b := by
  induction l with
  | nil => simp [firstMatch4] at h
  | cons x xs ih =>
    rw [firstMatch4] at h
    cases hm : match4 (x :: xs) with
    | some m0 =>
      rw [hm] at h
      injection h with h
      subst h
      obtain ⟨h1, h2, t, ht⟩ := match4_spec hm
      exact ⟨h1, h2, [], t, by simpa using ht⟩
    | none =>
      rw [hm] at h
      obtain ⟨h1, h2, a, b, hab⟩ := ih h
      exact ⟨h1, h2, x :: a, b, by simp [hab]⟩

theorem pageMatchAt_spec {l m : List Char} (h : pageMatchAt l = some m) :
    (∃ d w, m = d ++ w ++ "pages".data ∧ d ≠ [] ∧
      d.all Char.isDigit = true ∧ w.all isWs = true) ∧
    ∃ t, l = m ++ t := by
  unfold pageMatchAt at h
  simp only [] at h
  split at h
  · exact absurd h (by simp)
  · next hne =>
    split at h
    · next hlw =>
      injection h with h
      subst h
      constructor
      · refine ⟨_, _, rfl, ?_, tw_all _ _, tw_all _ _⟩
        simpa [List.isEmpty_iff] using hne
      · refine ⟨(((l.drop (l.takeWhile Char.isDigit).length).drop
          ((l.drop (l.takeWhile Char.isDigit).length).takeWhile isWs).length)).drop
          "pages".data.length, ?_⟩
        conv_lhs => rw [tw_split Char.isDigit l]
        conv_lhs => rw [tw_split isWs (l.drop (l.takeWhile Char.isDigit).length)]
        conv_lhs => rw [lw_split hlw]
        simp [List.append_assoc]
    · exact absurd h (by simp)

theorem firstPageMatch_spec {l m : List Char} (h : firstPageMatch l = some m) :
    (∃ d w, m = d ++ w ++ "pages".data ∧ d ≠ [] ∧
      d.all Char.isDigit = true ∧ w.all isWs = true) ∧
    ∃ a b, l = a ++ m ++ b := by
  induction l with
  | nil => simp [firstPageMatch] at h
  | cons x xs ih =>
    rw [firstPageMatch] at h
    cases hm : pageMatchAt (x :: xs) with
    | some m0 =>
      rw [hm] at h
      injection h with h
      subst h
      obtain ⟨hshape, t, ht⟩ := pageMatchAt_spec hm
      exact ⟨hshape, [], t, by simpa using ht⟩
    | none =>
      rw [hm] at h
      obtain ⟨hshape, a, b, hab⟩ := ih h
      exact ⟨hshape, x :: a, b, by simp [hab]⟩

theorem orOpt_assoc (a b c : Option α) : (a.or b).or c = a.or (b.or c) := by
  cases a <;> rfl

theorem firstSome_append (f : α → Option β) (l1 l2 : List α) :
    firstSome f (l1 ++ l2) = (firstSome f l1).or (firstSome f l2) := by
  induction l1 with
  | nil => rfl
  | cons x xs ih =>
    simp only [List.cons_append, firstSome]
    cases f x <;> simp [ih]

theorem firstSome_mem {f : α → Option β} {l : List α} {b : β}
    (h : firstSome f l = some b) : ∃ a, a ∈ l ∧ f a = some b := by
  induction l with
  | nil => simp [firstSome] at h
  | cons x xs ih =>
    rw [firstSome] at h
    cases hx : f x with
    | some b0 =>
      rw [hx] at h
      injection h with h
      subst h
      exact ⟨x, by simp, hx⟩
    | none =>
      rw [hx] at h
      obtain ⟨a, ha, hfa⟩ := ih h
      exact ⟨a, by simp [ha], hfa⟩

theorem scanStep_fst (acc : Option String × Option String) (t : String) :
    (scanStep acc t).1 = (yearVal t).or acc.1 := by
  unfold scanStep yearVal
  by_cases hy : (hasSub "Publication date" t || hasSub "Publisher" t) = true <;>
  by_cases hp : (hasSub "Print length" t || hasSub "pages" t ||
      hasSub "Page length" t) = true <;>
    simp only [hy, hp, if_true, if_false, Bool.false_eq_true] <;>
    cases firstMatch4 t.data <;> cases firstPageMatch t.data <;>
    simp [Option.or]

theorem scanStep_snd (acc : Option String × Option String) (t : String) :
    (scanStep acc t).2 = (pageVal t).or acc.2 := by
  unfold scanStep pageVal
  by_cases hy : (hasSub "Publication date" t || hasSub "Publisher" t) = true <;>
  by_cases hp : (hasSub "Print length" t || hasSub "pages" t ||
      hasSub "Page length" t) = true <;>
    simp only [hy, hp, if_true, if_false, Bool.false_eq_true] <;>
    cases firstMatch4 t.data <;> cases firstPageMatch t.data <;>
    simp [Option.or]

theorem foldl_scan_fst (items : List String) :
    ∀ acc, (items.foldl scanStep acc).1 = (firstSome yearVal items.reverse).or acc.1 := by
  induction items with
  | nil => intro acc; simp [firstSome, Option.or]
  | cons t ts ih =>
    intro acc
    rw [List.foldl_cons, ih, List.reverse_cons, firstSome_append, orOpt_assoc,
      scanStep_fst]
    cases firstSome yearVal ts.reverse <;> cases hyt : yearVal t <;>
      simp [firstSome, hyt, Option.or]

theorem foldl_scan_snd (items : List String) :
    ∀ acc, (items.foldl scanStep acc).2 = (firstSome pageVal items.reverse).or acc.2 := by
  induction items with
  | nil => intro acc; simp [firstSome, Option.or]
  | cons t ts ih =>
    intro acc
    rw [List.foldl_cons, ih, List.reverse_cons, firstSome_append, orOpt_assoc,
      scanStep_snd]
    cases firstSome pageVal ts.reverse <;> cases hpt : pageVal t <;>
      simp [firstSome, hpt, Option.or]

theorem detailsScan_fst (items : List String) :
    (detailsScan items).1 = firstSome yearVal items.reverse := by
  rw [detailsScan, foldl_scan_fst]
  cases firstSome yearVal items.reverse <;> rfl

theorem detailsScan_snd (items : List String) :
    (detailsScan items).2 = firstSome pageVal items.reverse := by
  rw [detailsScan, foldl_scan_snd]
  cases firstSome pageVal items.reverse <;> rfl

theorem classifyOne_spec {r : RawLink} {b : BookLink} (h : classifyOne r = some b) :
    b.url = r.url ∧ b.title = r.title ∧
    startsWithStr "http" r.url = true ∧
    storeTypeOf r.url = some b.storeType ∧
    hasSub "/aclk?" r.url = false ∧ hasSub "/url?" r.url = false := by
  unfold classifyOne at h
  split at h
  · exact absurd h (by simp)
  · next hs =>
    split at h
    · exact absurd h (by simp)
    · next st hst =>
      split at h
      · exact absurd h (by simp)
      · next ha =>
        injection h with h
        subst h
        simp only [Bool.not_eq_true, Bool.not_eq_eq_eq_not, Bool.not_true] at hs
        simp only [Bool.or_eq_true, not_or, Bool.not_eq_true] at ha
        exact ⟨rfl, rfl, by simpa using hs, hst, ha.1, ha.2⟩

theorem classifyOne_tagLink {r : RawLink} {b : BookLink} (h : classifyOne r = some b) :
    tagLink r = b := by
  obtain ⟨hu, ht, _, hst, _, _⟩ := classifyOne_spec h
  cases b
  simp only at hu ht hst
  simp [tagLink, hu, ht, hst]

theorem filterMap_sublist_map (f : α → Option β) (g : α → β)
    (hfg : ∀ a b, f a = some b → g a = b) :
    ∀ l : List α, List.Sublist (l.filterMap f) (l.map g) := by
  intro l
  induction l with
  | nil => simp
  | cons x xs ih =>
    rw [List.map_cons]
    cases hx : f x with
    | none =>
      rw [List.filterMap_cons_none hx]
      exact List.Sublist.cons (g x) ih
    | some b =>
      rw [List.filterMap_cons_some hx, hfg x b hx]
      exact List.Sublist.cons₂ b ih

theorem classifyOne_toRaw {raw : List RawLink} {b : BookLink}
    (hmem : b ∈ classifyLinks raw) : classifyOne (toRaw b) = some b := by
  obtain ⟨r, hr, hco⟩ := List.mem_filterMap.mp hmem
  obtain ⟨hu, ht, hs, hst, ha, hq⟩ := classifyOne_spec hco
  have hs' : startsWithStr "http" b.url = true := by rw [hu]; exact hs
  have hst' : storeTypeOf b.url = some b.storeType := by rw [hu]; exact hst
  have ha' : hasSub "/aclk?" b.url = false := by rw [hu]; exact ha
  have hq' : hasSub "/url?" b.url = false := by rw [hu]; exact hq
  unfold classifyOne toRaw
  simp only [hs', hst', ha', hq', Bool.not_true, Bool.false_eq_true, if_false,
    Bool.or_self]

theorem filterMap_toRaw_id (l : List BookLink)
    (h : ∀ b ∈ l, classifyOne (toRaw b) = some b) :
    (l.map toRaw).filterMap classifyOne = l := by
  induction l with
  | nil => rfl
  | cons x xs ih =>
    rw [List.map_cons, List.filterMap_cons_some (h x (by simp)),
      ih (fun b hb => h b (by simp [hb]))]

theorem execP_neutral {p : Prog} (h : sessionNeutral p = true) :
    ∀ n, (execP p n).1 = n := by
  induction p with
  | act a =>
    cases a with
    | acquire => simp [sessionNeutral] at h
    | release => simp [sessionNeutral] at h
    | work ok => intro n; rfl
  | seq p q ihp ihq =>
    rw [sessionNeutral, Bool.and_eq_true] at h
    intro n
    rw [execP]
    by_cases h2 : (execP p n).2 = true
    · simp only [h2, if_true]
      exact ihp h.1 n
    · rw [Bool.not_eq_true] at h2
      simp only [h2, Bool.false_eq_true, if_false]
      rw [ihq h.2, ihp h.1 n]
  | attempt p q ihp ihq =>
    rw [sessionNeutral, Bool.and_eq_true] at h
    intro n
    rw [execP]
    simp only
    rw [ihq h.2, ihp h.1 n]

theorem orNotFound_ne_empty (s : String) : orNotFound s ≠ "" := by
  unfold orNotFound
  by_cases hs : s = ""
  · simp [hs, notFound]
  · simp [hs]

theorem optOrNotFound_ne_empty (s : Option String) : optOrNotFound s ≠ "" := by
  cases s with
  | none => simp [optOrNotFound, notFound]
  | some v => exact orNotFound_ne_empty v

/-! ## Concrete inputs used by witnesses and counterexamples -/

/-- A page whose product-detail list contains two items that both carry a
publication keyword and a 4-digit year. -/
def cexPage : PageData :=
  { titleRaw := "Example Book", authorRaw := "A. Author"
  , detailItems := ["Publication date : 1999", "Publisher : Example Press (2005)"]
  , descExpander := none, descFallback := none, pageAsin := "" }

/-- A page on which no selector rule yields a non-empty value. -/
def emptyPage : PageData :=
  { titleRaw := "", authorRaw := "", detailItems := []
  , descExpander := none, descFallback := none, pageAsin := "" }

/-- A page with an in-page ASIN, to observe when the in-page lookup runs. -/
def demoPage : PageData :=
  { titleRaw := "T", authorRaw := "A", detailItems := []
  , descExpander := none, descFallback := none, pageAsin := "ZZZ" }

/-- Two classified links: an amazon link first, a goodreads link second. -/
def demoLinks : List BookLink :=
  [{ url := "https://www.amazon.com/dp/X", title := "X", storeType := "amazon" },
   { url := "https://www.goodreads.com/Y", title := "Y", storeType := "goodreads" }]

/-- Raw anchors: a redirect wrapper, a good link, a non-http link, and a
link from no known retailer. -/
def demoRaw : List RawLink :=
  [{ url := "https://www.google.com/url?q=https://www.amazon.com/dp/1", title := "ad" },
   { url := "https://www.amazon.com/dp/2", title := "ok" },
   { url := "ftp://www.goodreads.com/3", title := "scheme" },
   { url := "https://example.com/4", title := "unknown" }]

/-- Detail items carrying a page count and a publication year. -/
def demoItems : List String :=
  ["Print length : 320 pages", "Publication date : May 5, 1999"]

/-! ## Claim theorems -/

/-- Claim C1, counterexample: on a document whose product-detail list has two
items with a 4-digit year, `scrapeAmazonProduct` reports the year of the
*later* matching item ("2005"), not of the earliest one ("1999") as the
claim states. -/
theorem year_first_match_refuted :
    (scrapeAmazonProduct "https://www.amazon.com/dp/B000" cexPage).yearPublished = "2005" ∧
    (scrapeAmazonProduct "https://www.amazon.com/dp/B000" cexPage).yearPublished ≠ "1999" := by
  decide

/-- Claim C1 (amended): for the description field the earliest rule that
matches determines the value (the expander rule returns without consulting
the fallback), but within the product-details scan each matching list item
overwrites the previous assignment, so the yearPublished and pageLength
values come from the *latest* matching item — the first match of the
reversed item list. -/
theorem details_last_assignment_wins :
    (∀ (t : String) (fb : Option String), descChain (some t) fb = t) ∧
    ∀ items : List String,
      (detailsScan items).1 = firstSome yearVal items.reverse ∧
      (detailsScan items).2 = firstSome pageVal items.reverse :=
  ⟨fun _ _ => rfl, fun items => ⟨detailsScan_fst items, detailsScan_snd items⟩⟩

/-- Claim C2: any field for which no rule yields a non-empty value is the
sentinel "Not found" in the result; no field of the returned record is ever
the empty string, and the record is always assembled (with the source URL
kept verbatim) no matter which fields are absent. -/
theorem scrape_sentinel_on_absent (amazonUrl : String) (d : PageData) :
    (extractAsin amazonUrl d = "" → (scrapeAmazonProduct amazonUrl d).asin = notFound) ∧
    (d.titleRaw = "" → (scrapeAmazonProduct amazonUrl d).title = notFound) ∧
    (d.authorRaw = "" → (scrapeAmazonProduct amazonUrl d).author = notFound) ∧
    ((detailsScan d.detailItems).1 = none →
      (scrapeAmazonProduct amazonUrl d).yearPublished = notFound) ∧
    ((detailsScan d.detailItems).2 = none →
      (scrapeAmazonProduct amazonUrl d).pageLength = notFound) ∧
    (extractDescription d = "" → (scrapeAmazonProduct amazonUrl d).description = notFound) ∧
    (scrapeAmazonProduct amazonUrl d).asin ≠ "" ∧
    (scrapeAmazonProduct amazonUrl d).title ≠ "" ∧
    (scrapeAmazonProduct amazonUrl d).author ≠ "" ∧
    (scrapeAmazonProduct amazonUrl d).yearPublished ≠ "" ∧
    (scrapeAmazonProduct amazonUrl d).pageLength ≠ "" ∧
    (scrapeAmazonProduct amazonUrl d).description ≠ "" ∧
    (scrapeAmazonProduct amazonUrl d).url = amazonUrl := by
  refine ⟨fun h => ?_, fun h => ?_, fun h => ?_, fun h => ?_, fun h => ?_, fun h => ?_,
    orNotFound_ne_empty _, orNotFound_ne_empty _, orNotFound_ne_empty _,
    optOrNotFound_ne_empty _, optOrNotFound_ne_empty _, orNotFound_ne_empty _, rfl⟩
  · simp [scrapeAmazonProduct, orNotFound, h]
  · simp [scrapeAmazonProduct, orNotFound, h]
  · simp [scrapeAmazonProduct, orNotFound, h]
  · simp [scrapeAmazonProduct, optOrNotFound, h]
  · simp [scrapeAmazonProduct, optOrNotFound, h]
  · simp [scrapeAmazonProduct, orNotFound, h]

/-- Witness for C2: a page with no matching rule for any field yields the
sentinel in every field. -/
theorem scrape_sentinel_on_absent_witness :
    (scrapeAmazonProduct "https://www.amazon.com/item" emptyPage).asin = notFound ∧
    (scrapeAmazonProduct "https://www.amazon.com/item" emptyPage).title = notFound ∧
    (scrapeAmazonProduct "https://www.amazon.com/item" emptyPage).author = notFound ∧
    (scrapeAmazonProduct "https://www.amazon.com/item" emptyPage).yearPublished = notFound ∧
    (scrapeAmazonProduct "https://www.amazon.com/item" emptyPage).pageLength = notFound ∧
    (scrapeAmazonProduct "https://www.amazon.com/item" emptyPage).description = notFound := by
  obtain ⟨h1, h2, h3, h4, h5, h6, _⟩ :=
    scrape_sentinel_on_absent "https://www.amazon.com/item" emptyPage
  exact ⟨h1 (by decide), h2 rfl, h3 rfl, h4 rfl, h5 rfl, h6 rfl⟩

/-- Claim C3: with a non-empty classified list and a store preference other
than "any", the first link of the preferred store is returned when one
exists, and otherwise the first link of the full list — always a success,
never an error. -/
theorem select_prefers_store_then_any (links : List BookLink) (pref : String)
    (hne : links ≠ []) (hpref : pref ≠ "any") :
    findBookLink links pref =
      Except.ok ((links.filter (fun l => l.storeType == pref)).headD
        (links.headD dummyLink)) := by
  cases links with
  | nil => exact absurd rfl hne
  | cons x xs =>
    have hp : (pref == "any") = false := by
      simpa using hpref
    unfold findBookLink
    simp only [List.isEmpty_cons, Bool.false_eq_true, if_false, hp]
    cases hf : (x :: xs).filter (fun l => l.storeType == pref) with
    | nil => simp [hf]
    | cons y ys => simp [hf]

/-- Witness for C3: preference "barnesnoble" matches neither link, so the
first classified link (the amazon one) is returned. -/
theorem select_prefers_store_then_any_witness :
    findBookLink demoLinks "barnesnoble" =
      Except.ok { url := "https://www.amazon.com/dp/X", title := "X"
                , storeType := "amazon" } := by
  rw [select_prefers_store_then_any demoLinks "barnesnoble" (by decide) (by decide)]
  exact congrArg Except.ok (by decide)

/-- Claim C4: the search fails exactly on an empty classified list; with at
least one recognized link it returns a link. -/
theorem search_error_iff_no_links (links : List BookLink) (pref : String) :
    (links = [] →
      findBookLink links pref = Except.error "No book links found in search results") ∧
    (links ≠ [] → isOkE (findBookLink links pref) = true) := by
  constructor
  · rintro rfl
    rfl
  · intro hne
    cases links with
    | nil => exact absurd rfl hne
    | cons x xs =>
      unfold findBookLink
      simp only [List.isEmpty_cons, Bool.false_eq_true, if_false]
      by_cases hp : (pref == "any") = true
      · simp [hp, isOkE]
      · simp only [hp, Bool.false_eq_true, if_false]
        cases hf : (x :: xs).filter (fun l => l.storeType == pref) with
        | nil => simp [hf, isOkE]
        | cons y ys => simp [hf, isOkE]

/-- Witness for C4: two classified links give a success; the empty list
gives the error. -/
theorem search_error_iff_no_links_witness :
    isOkE (findBookLink demoLinks "any") = true ∧
    findBookLink ([] : List BookLink) "any" =
      Except.error "No book links found in search results" :=
  ⟨(search_error_iff_no_links demoLinks "any").2 (by decide),
   (search_error_iff_no_links ([] : List BookLink) "any").1 rfl⟩

/-- Claim C5: every link in the classifier output starts with "http",
carries none of the ad/redirect markers "/aclk?" and "/url?", and matches
one of the known retailer domains. -/
theorem classifier_excludes_ads_and_unknown (raw : List RawLink) (b : BookLink)
    (hmem : b ∈ classifyLinks raw) :
    hasSub "/aclk?" b.url = false ∧ hasSub "/url?" b.url = false ∧
    startsWithStr "http" b.url = true ∧ storeTypeOf b.url ≠ none := by
  obtain ⟨r, hr, hco⟩ := List.mem_filterMap.mp hmem
  obtain ⟨hu, ht, hs, hst, ha, hq⟩ := classifyOne_spec hco
  rw [hu]
  refine ⟨ha, hq, hs, ?_⟩
  rw [hst]
  exact Option.some_ne_none _

/-- Witness for C5: the one surviving link of `demoRaw` satisfies every
exclusion property. -/
theorem classifier_excludes_ads_and_unknown_witness :
    ({ url := "https://www.amazon.com/dp/2", title := "ok", storeType := "amazon" } :
      BookLink) ∈ classifyLinks demoRaw ∧
    (hasSub "/aclk?" "https://www.amazon.com/dp/2" = false ∧
     hasSub "/url?" "https://www.amazon.com/dp/2" = false ∧
     startsWithStr "http" "https://www.amazon.com/dp/2" = true ∧
     storeTypeOf "https://www.amazon.com/dp/2" ≠ none) :=
  ⟨by decide,
   classifier_excludes_ads_and_unknown demoRaw
     { url := "https://www.amazon.com/dp/2", title := "ok", storeType := "amazon" }
     (by decide)⟩

/-- Claim C6: with "/dp/" in the URL the identifier is the text after the
first "/dp/" up to the next "/" and the in-page lookup is bypassed
(the result does not depend on the page); likewise for "/gp/product/" when
"/dp/" is absent; with neither pattern the in-page value is used. -/
theorem asin_url_shortcut (url : String) :
    (hasSub "/dp/" url = true →
      (∃ pre, url.data = pre ++ "/dp/".data ++ afterFirst "/dp/".data url.data) ∧
      ∀ d : PageData, extractAsin url d =
        String.mk ((afterFirst "/dp/".data url.data).takeWhile (fun c => c != '/'))) ∧
    (hasSub "/dp/" url = false → hasSub "/gp/product/" url = true →
      (∃ pre, url.data = pre ++ "/gp/product/".data ++
        afterFirst "/gp/product/".data url.data) ∧
      ∀ d : PageData, extractAsin url d =
        String.mk ((afterFirst "/gp/product/".data url.data).takeWhile (fun c => c != '/'))) ∧
    (hasSub "/dp/" url = false → hasSub "/gp/product/" url = false →
      ∀ d : PageData, extractAsin url d = d.pageAsin) := by
  refine ⟨fun h1 => ⟨afterFirst_split h1, fun d => ?_⟩,
          fun h1 h2 => ⟨afterFirst_split h2, fun d => ?_⟩,
          fun h1 h2 d => ?_⟩
  · simp [extractAsin, asinFromUrl, h1]
  · simp [extractAsin, asinFromUrl, h1, h2]
  · simp [extractAsin, asinFromUrl, h1, h2]

/-- Witness for C6: the "/dp/" and "/gp/product/" shortcuts extract the
path segment and ignore the in-page ASIN "ZZZ"; a URL with neither pattern
falls back to the in-page value. -/
theorem asin_url_shortcut_witness :
    extractAsin "https://www.amazon.com/x/dp/B08ABC1234/ref=foo" demoPage = "B08ABC1234" ∧
    extractAsin "https://www.amazon.com/gp/product/0143127551" demoPage = "0143127551" ∧
    extractAsin "https://www.amazon.com/item/123" demoPage = "ZZZ" := by
  refine ⟨?_, ?_, ?_⟩
  · rw [((asin_url_shortcut "https://www.amazon.com/x/dp/B08ABC1234/ref=foo").1
      (by decide)).2 demoPage]
    decide
  · rw [((asin_url_shortcut "https://www.amazon.com/gp/product/0143127551").2.1
      (by decide) (by decide)).2 demoPage]
    decide
  · rw [(asin_url_shortcut "https://www.amazon.com/item/123").2.2
      (by decide) (by decide) demoPage]
    decide

/-- Claim C7: classification is a stable filter — the output is a sublist
of the input links in their classified form, in the original order — and
re-classifying its own output reproduces it exactly. -/
theorem classifier_stable_and_idempotent (raw : List RawLink) :
    List.Sublist (classifyLinks raw) (List.map tagLink raw) ∧
    classifyLinks (List.map toRaw (classifyLinks raw)) = classifyLinks raw :=
  ⟨filterMap_sublist_map classifyOne tagLink (fun _ _ h => classifyOne_tagLink h) raw,
   filterMap_toRaw_id (classifyLinks raw) (fun _ hb => classifyOne_toRaw hb)⟩

/-- Claim C8: for any scraping body that does not itself manage sessions,
both request shapes (metadata worker and store-link worker) end with zero
open sessions, whether the body returns normally or throws. -/
theorem session_released_on_all_paths (body : Prog) (h : sessionNeutral body = true) :
    (execP (scrapeProg body) 0).1 = 0 ∧ (execP (findProg body) 0).1 = 0 := by
  have hb := execP_neutral h 1
  constructor <;> simp [scrapeProg, findProg, execP, hb]

/-- Witness for C8: a body that throws still ends with zero open
sessions in both request shapes. -/
theorem session_released_on_all_paths_witness :
    sessionNeutral (Prog.act (Act.work false)) = true ∧
    ((execP (scrapeProg (Prog.act (Act.work false))) 0).1 = 0 ∧
     (execP (findProg (Prog.act (Act.work false))) 0).1 = 0) :=
  ⟨rfl, session_released_on_all_paths (Prog.act (Act.work false)) rfl⟩

/-- Claim C9: a non-sentinel yearPublished is a 4-digit string taken from a
detail item that mentions a publication keyword, and a non-sentinel
pageLength has the shape digits-whitespace-"pages" and is taken from a
detail item that mentions a page keyword; both are substrings of the item. -/
theorem details_values_wellformed (items : List String) (y p : String) :
    ((detailsScan items).1 = some y →
      y.length = 4 ∧ y.data.all Char.isDigit = true ∧
      ∃ t, t ∈ items ∧
        (hasSub "Publication date" t = true ∨ hasSub "Publisher" t = true) ∧
        ∃ a b, t.data = a ++ y.data ++ b) ∧
    ((detailsScan items).2 = some p →
      (∃ d w, p.data = d ++ w ++ "pages".data ∧ d ≠ [] ∧
        d.all Char.isDigit = true ∧ w.all isWs = true) ∧
      ∃ t, t ∈ items ∧
        (hasSub "Print length" t = true ∨ hasSub "pages" t = true ∨
         hasSub "Page length" t = true) ∧
        ∃ a b, t.data = a ++ p.data ++ b) := by
  constructor
  · intro h
    rw [detailsScan_fst] at h
    obtain ⟨t, ht, hyt⟩ := firstSome_mem h
    rw [List.mem_reverse] at ht
    unfold yearVal at hyt
    split at hyt
    · next hkw =>
      obtain ⟨m, hm, hmk⟩ := Option.map_eq_some'.mp hyt
      obtain ⟨hl, hdig, a, b, hab⟩ := firstMatch4_spec hm
      subst hmk
      rw [Bool.or_eq_true] at hkw
      exact ⟨hl, hdig, t, ht, hkw, a, b, hab⟩
    · exact absurd hyt (by simp)
  · intro h
    rw [detailsScan_snd] at h
    obtain ⟨t, ht, hpt⟩ := firstSome_mem h
    rw [List.mem_reverse] at ht
    unfold pageVal at hpt
    split at hpt
    · next hkw =>
      obtain ⟨m, hm, hmk⟩ := Option.map_eq_some'.mp hpt
      obtain ⟨hshape, a, b, hab⟩ := firstPageMatch_spec hm
      subst hmk
      rw [Bool.or_eq_true, Bool.or_eq_true] at hkw
      exact ⟨hshape, t, ht, by tauto, a, b, hab⟩
    · exact absurd hpt (by simp)

/-- Witness for C9: on `demoItems` the extracted year "1999" is 4 digits
and a substring of the publication-date item. -/
theorem details_values_wellformed_witness :
    (detailsScan demoItems).1 = some "1999" ∧
    ("1999".length = 4 ∧ "1999".data.all Char.isDigit = true ∧
      ∃ t, t ∈ demoItems ∧
        (hasSub "Publication date" t = true ∨ hasSub "Publisher" t = true) ∧
        ∃ a b, t.data = a ++ "1999".data ++ b) :=
  ⟨by decide,
   (details_values_wellformed demoItems "1999" "320 pages").1 (by decide)⟩

/-- Claim C10: a recorded search keeps at most 10 entries with the newest
first and leaves the error log untouched; a logged error keeps at most 20
entries with the newest first and leaves the searches untouched. -/
theorem agent_state_bounded (st : BookSearchState) (e : SearchEntry) (f : ErrorEntry) :
    (recordSearch st e).recentSearches.length ≤ 10 ∧
    (recordSearch st e).recentSearches.head? = some e ∧
    (recordSearch st e).errors = st.errors ∧
    (logError st f).errors.length ≤ 20 ∧
    (logError st f).errors.head? = some f ∧
    (logError st f).recentSearches = st.recentSearches := by
  refine ⟨?_, rfl, rfl, ?_, rfl, rfl⟩
  · simp only [recordSearch, List.length_cons, List.length_take]
    omega
  · simp only [logError, List.length_cons, List.length_take]
    omega

end BookNotes
